import Mathlib

/-!
Verification of the MQTT ↔ Telegram relay (`relay.py`).

The relay keeps a process-wide set of authorized chat ids (`allowed_chats`),
updated from a retained MQTT control topic, and uses it both to authorize
incoming Telegram commands and to resolve broadcast targets.  The pure
fragments of the Python module are embedded below as executable Lean
definitions; external library primitives (`json.loads`, the HTTP and MQTT
transports) appear as explicit parameters, and `bytes.decode` is modelled
byte-for-byte.  Python's `str` operations are modelled on the character
lists underlying Lean strings (`str.lower` on the ASCII range, which covers
every string the relay compares after lowering).
-/

namespace Relay

/-- Python `str.strip()` on a character list: drop leading and trailing
whitespace. -/
def stripChars (l : List Char) : List Char :=
  ((l.dropWhile Char.isWhitespace).reverse.dropWhile Char.isWhitespace).reverse

/-- Python `str.strip()`. -/
def pyStrip (s : String) : String :=
  ⟨stripChars s.data⟩

/-- Python `str.lower()` (ASCII range). -/
def pyLower (s : String) : String :=
  ⟨s.data.map Char.toLower⟩

/-- Python `str.split(",")` on a character list: `[] ↦ [""]`, and each comma
opens a new (possibly empty) field. -/
def splitCommaChars : List Char → List (List Char)
  | [] => [[]]
  | c :: cs =>
    if c = ',' then [] :: splitCommaChars cs
    else
      match splitCommaChars cs with
      | t :: ts => (c :: t) :: ts
      | [] => [[c]]

/-- Python `str.split(",")`. -/
def pySplitComma (s : String) : List String :=
  (splitCommaChars s.data).map String.mk

/-- Whether a string starts with the single character `c`
(Python `s.startswith(c)` for the one-character needles the relay uses). -/
def headIs (c : Char) (s : String) : Bool :=
  match s.data with
  | [] => false
  | d :: _ => d == c

/-- Python `s[1:]`. -/
def pyDrop1 (s : String) : String :=
  ⟨s.data.drop 1⟩

/-- Python `s.isdigit()` for the ASCII ids this relay handles:
nonempty and every character a decimal digit. -/
def pyIsDigit (s : String) : Bool :=
  !s.data.isEmpty && s.data.all Char.isDigit

/-- A token the normalizer accepts: `-` followed by all-digits (negative ids
denote group-style chats), or all-digits. -/
def validId (s : String) : Bool :=
  (headIs '-' s && pyIsDigit (pyDrop1 s)) || pyIsDigit s

/-- The per-candidate body of the `_normalize_ids` loop (relay.py:65-73):
trim, drop an empty result, keep a token iff it is `-`+digits or
all-digits. -/
def normalizeStep (x : String) : Option String :=
  let s := pyStrip x
  if s.data.isEmpty then none
  else if headIs '-' s && pyIsDigit (pyDrop1 s) then some s
  else if pyIsDigit s then some s
  else none

/-- The function `_normalize_ids` (relay.py:63-74). -/
def _normalize_ids (cands : List String) : List String :=
  cands.filterMap normalizeStep

/-- Python `set` of strings, as the list of its elements in insertion order
with duplicates never stored. -/
def pySetAdd (s : List String) (x : String) : List String :=
  if x ∈ s then s else s ++ [x]

/-- Python `set.update` / set construction from an iterable. -/
def pySetOf (xs : List String) : List String :=
  xs.foldl pySetAdd []

/-- Static configuration read from the environment (relay.py:43-48):
`CHAT_ID` (stripped at load) and `ALLOW_ANY_CHAT`. -/
structure Config where
  chatIdEnv : String
  allowAnyChat : Bool
deriving DecidableEq

/-- The authorization check `_is_chat_allowed` (relay.py:205-210): the dynamic set decides when
nonempty; else the legacy single `CHAT_ID` when configured; else the
permissive flag. -/
def _is_chat_allowed (cfg : Config) (allowed_chats : List String)
    (chat_id : String) : Bool :=
  if !allowed_chats.isEmpty then decide (chat_id ∈ allowed_chats)
  else if cfg.chatIdEnv ≠ "" then decide (chat_id = cfg.chatIdEnv)
  else cfg.allowAnyChat

/-- Startup seeding of `allowed_chats` (relay.py:61, 76-82): normalized ids
from `CHAT_IDS` when nonempty, then the legacy `CHAT_ID` added verbatim
(it was only stripped when read from the environment). -/
def allowed_chats_init (chatIdsRaw chatIdRaw : String) : List String :=
  let chatIdsEnv := pyStrip chatIdsRaw
  let chatIdEnv := pyStrip chatIdRaw
  let s1 :=
    if chatIdsEnv ≠ "" then pySetOf (_normalize_ids (pySplitComma chatIdsEnv))
    else []
  if chatIdEnv ≠ "" then pySetAdd s1 chatIdEnv else s1

/-- A Python value as returned by `json.loads` (the subset the relay
inspects).  Python `bool` is kept separate even though it is a subclass of
`int` there; `pyTokStr` accounts for `str(True) = "True"`. -/
inductive PyVal where
  | str (s : String)
  | int (n : Int)
  | bool (b : Bool)
  | float
  | none_
  | list (xs : List PyVal)
  | dict (kvs : List (String × PyVal))

/-- Python `dict.get`: the last binding of a key wins (as `json.loads`
builds its dicts). -/
def pyDictGet (kvs : List (String × PyVal)) (k : String) : Option PyVal :=
  ((kvs.filter fun kv => kv.1 == k).getLast?).map (·.2)

/-- Python `str(u)` for the `users` entries the code accepts
(`isinstance(u, (str, int))`; a Python `bool` passes that check). -/
def pyTokStr : PyVal → Option String
  | .str s => some s
  | .int n => some (toString n)
  | .bool b => some (if b then "True" else "False")
  | _ => none

/-- Candidate-id extraction from a parsed JSON object (relay.py:128-136):
string-valued `admin`/`manager` fields, then the str/int entries of a
list-valued `users` field. -/
def jsonIds (kvs : List (String × PyVal)) : List String :=
  let adm := ["admin", "manager"].filterMap fun k =>
    match pyDictGet kvs k with
    | some (.str s) => some s
    | _ => none
  let usr :=
    match pyDictGet kvs "users" with
    | some (.list us) => us.filterMap pyTokStr
    | _ => []
  adm ++ usr

/-- Candidate extraction from the stripped, nonempty payload
(relay.py:126-138).  `jl` stands for `json.loads`; `none` covers both a
parse failure and a non-dict result (either raises in the Python, and the
surrounding `try` turns that into a failed update). -/
def extract_ids (jl : String → Option PyVal) (p : String) :
    Option (List String) :=
  if headIs '\x7b' p then
    match jl p with
    | some (.dict kvs) => some (jsonIds kvs)
    | _ => none
  else
    some (pySplitComma p)

/-- The registry update `_update_allowed_from_payload` (relay.py:115-152) as a function from the
previous `allowed_chats` to the returned flag and the new `allowed_chats`:
strip, reject empty, extract candidates (CSV or JSON), normalize, reject an
empty normal form, and otherwise clear the set and insert the normalized
ids (a wholesale replacement). -/
def _update_allowed_from_payload (jl : String → Option PyVal)
    (payload : String) (prev : List String) : Bool × List String :=
  let p := pyStrip payload
  if p.data.isEmpty then (false, prev)
  else
    match extract_ids jl p with
    | none => (false, prev)
    | some ids =>
      let norm := _normalize_ids ids
      if norm.isEmpty then (false, prev)
      else (true, pySetOf norm)

/-- Whether a byte is a UTF-8 continuation byte (`0x80..0xBF`). -/
def isCont (b : Nat) : Bool :=
  0x80 ≤ b && b ≤ 0xBF

/-- Valid range of the second byte of a 3- or 4-byte UTF-8 sequence with
lead byte `b0` (the lead byte constrains it beyond `0x80..0xBF` to exclude
overlong forms, surrogates and codepoints past `0x10FFFF`). -/
def cont2ok (b0 b1 : Nat) : Bool :=
  if b0 = 0xE0 then 0xA0 ≤ b1 && b1 ≤ 0xBF
  else if b0 = 0xED then 0x80 ≤ b1 && b1 ≤ 0x9F
  else if b0 = 0xF0 then 0x90 ≤ b1 && b1 ≤ 0xBF
  else if b0 = 0xF4 then 0x80 ≤ b1 && b1 ≤ 0x8F
  else isCont b1

/-- Worker for `utf8DecodeWith`, structurally recursive on a fuel bound so
that it evaluates inside the kernel.  Every recursive call shortens the
byte list, so any fuel at least the list's length yields the decoding; an
exhausted fuel (unreachable from the wrapper) returns what was decoded. -/
def utf8Go (err : List Char) : Nat → List Nat → List Char
  | _, [] => []
  | 0, _ => []
  | fuel + 1, b :: rest =>
    if b ≤ 0x7F then Char.ofNat b :: utf8Go err fuel rest
    else if 0xC2 ≤ b && b ≤ 0xDF then
      match rest with
      | [] => err
      | c1 :: rest1 =>
        if isCont c1 then
          Char.ofNat ((b - 0xC0) * 64 + (c1 - 0x80)) :: utf8Go err fuel rest1
        else err ++ utf8Go err fuel (c1 :: rest1)
    else if 0xE0 ≤ b && b ≤ 0xEF then
      match rest with
      | [] => err
      | c1 :: rest1 =>
        if cont2ok b c1 then
          match rest1 with
          | [] => err
          | c2 :: rest2 =>
            if isCont c2 then
              Char.ofNat ((b - 0xE0) * 4096 + (c1 - 0x80) * 64 + (c2 - 0x80)) ::
                utf8Go err fuel rest2
            else err ++ utf8Go err fuel (c2 :: rest2)
        else err ++ utf8Go err fuel (c1 :: rest1)
    else if 0xF0 ≤ b && b ≤ 0xF4 then
      match rest with
      | [] => err
      | c1 :: rest1 =>
        if cont2ok b c1 then
          match rest1 with
          | [] => err
          | c2 :: rest2 =>
            if isCont c2 then
              match rest2 with
              | [] => err
              | c3 :: rest3 =>
                if isCont c3 then
                  Char.ofNat ((b - 0xF0) * 262144 + (c1 - 0x80) * 4096 +
                      (c2 - 0x80) * 64 + (c3 - 0x80)) :: utf8Go err fuel rest3
                else err ++ utf8Go err fuel (c3 :: rest3)
            else err ++ utf8Go err fuel (c2 :: rest2)
        else err ++ utf8Go err fuel (c1 :: rest1)
    else err ++ utf8Go err fuel rest

/-- UTF-8 decoding of a byte list with an error handler that emits `err`
for each maximal invalid subpart and resumes (CPython's decoder with
`errors="ignore"` when `err = []`, and with `errors="replace"` when
`err = ['�']`).  Never fails. -/
def utf8DecodeWith (err : List Char) (bs : List Nat) : List Char :=
  utf8Go err bs.length bs

/-- Python `bytes.decode(errors="ignore")` (relay.py:171): undecodable bytes are
dropped. -/
def utf8DecodeIgnore (bs : List Nat) : String :=
  ⟨utf8DecodeWith [] bs⟩

/-- Decoding «with invalid bytes replaced», following the spec's words (for
comparison with the source's `errors="ignore"` decoding): each maximal
invalid subpart becomes U+FFFD. -/
def utf8DecodeReplaceSpec (bs : List Nat) : String :=
  ⟨utf8DecodeWith ['�'] bs⟩

/-- The literal that the forwarding f-string places in front of the topic
(relay.py:181); in the source file those are the four characters
U+011F U+0178 U+201C U+00A1 followed by a space. -/
def forwardMark : String :=
  "ğŸ“¡ "

/-- What `on_message` does with one bus message: hand the decoded payload of
the control topic to the registry update, or broadcast every other topic's
decoded payload via the notifier. -/
inductive BusEffect where
  | controlUpdate (ok : Bool) (allowed : List String)
  | broadcast (text : String)
deriving DecidableEq

/-- The bus callback `on_message` (relay.py:170-182): decode the payload ignoring
undecodable bytes; a control-topic message drives the registry update, any
other topic is forwarded as `forwardMark ++ topic ++ "\n" ++ payload`,
broadcast to all allowed chats. -/
def on_message (jl : String → Option PyVal) (chatsTopic : String)
    (allowed : List String) (topic : String) (payload : List Nat) : BusEffect :=
  let p := utf8DecodeIgnore payload
  if topic = chatsTopic then
    let r := _update_allowed_from_payload jl p allowed
    .controlUpdate r.1 r.2
  else
    .broadcast (forwardMark ++ topic ++ "\n" ++ p)

/-- The command table `map_text_to_cmd` (relay.py:196-203): strip and lower, then the fixed
table; `/start` and `/help` fall through to `None` exactly like unknown
text (the poller answers them before calling this map). -/
def map_text_to_cmd (txt : String) : Option String :=
  let t := pyLower (pyStrip txt)
  if t = "/temp" then some "TEMP?"
  else if t = "/door" then some "DOOR?"
  else if t = "/status" then some "STATUS?"
  else if t = "/reboot" then some "REBOOT"
  else if t = "/start" ∨ t = "/help" then none
  else none

/-- The reply the poller sends for one message, by kind: the help text, the
confirmation echoing a published command, the publish-failure notice, or
the unknown-command notice (which appends the help text). -/
inductive Reply where
  | help
  | confirm (cmd : String)
  | pubFail
  | unknown
deriving DecidableEq

/-- Observable effects of handling one Telegram message: the replies sent
(chat id and kind) and the commands published on the command topic. -/
structure Outcome where
  sends : List (String × Reply)
  publishes : List String
deriving DecidableEq

/-- One Telegram message: `str` of the chat id, and the text (the code
reads a missing text as `""`). -/
structure TgMessage where
  chatId : String
  text : String

/-- One `getUpdates` entry: the update id and the message (`message` or
`edited_message`, `none` when both are absent). -/
structure TgUpdate where
  update_id : Int
  message : Option TgMessage

/-- The per-message body of `telegram_poller` (relay.py:224-252), after the
offset advance: skip messages with no body or empty stripped text, skip
unauthorized chats with no reply, answer `/start` and `/help` with the help
text, publish a mapped command and confirm it (or report the failure when
the publish raises, which `pubOk = false` models), and answer anything else
with the unknown-command notice.  Replies go to the sender only. -/
def processMessage (cfg : Config) (allowed : List String) (pubOk : Bool)
    (msg : Option TgMessage) : Outcome :=
  match msg with
  | none => ⟨[], []⟩
  | some m =>
    let chat_id := m.chatId
    let text := pyStrip m.text
    if text.data.isEmpty then ⟨[], []⟩
    else if !_is_chat_allowed cfg allowed chat_id then ⟨[], []⟩
    else if pyLower text = "/start" ∨ pyLower text = "/help" then
      ⟨[(chat_id, .help)], []⟩
    else
      match map_text_to_cmd text with
      | some cmd =>
        if pubOk then ⟨[(chat_id, .confirm cmd)], [cmd]⟩
        else ⟨[(chat_id, .pubFail)], []⟩
      | none => ⟨[(chat_id, .unknown)], []⟩

/-- The offset advance of one `getUpdates` batch (relay.py:222-223):
`offset = max(offset, upd["update_id"] + 1)`, folded over the batch in the
order received. -/
def advanceOffset (offset : Int) (batch : List TgUpdate) : Int :=
  batch.foldl (fun o u => max o (u.update_id + 1)) offset

end Relay

namespace Relay

/-! ### Helper lemmas -/

theorem dropWhile_head_false {α : Type} {p : α → Bool} {a : α} {t : List α} :
    ∀ {l : List α}, l.dropWhile p = a :: t → p a = false := by
  intro l
  induction l with
  | nil => intro h; simp at h
  | cons x xs ih =>
    intro h
    by_cases hx : p x
    · rw [List.dropWhile_cons_of_pos hx] at h
      exact ih h
    · rw [List.dropWhile_cons_of_neg hx] at h
      cases h
      simpa using hx

theorem dropWhile_idem {α : Type} {p : α → Bool} (l : List α) :
    (l.dropWhile p).dropWhile p = l.dropWhile p := by
  cases h : l.dropWhile p with
  | nil => rfl
  | cons a t =>
    have ha := dropWhile_head_false h
    rw [List.dropWhile_cons_of_neg (by simp [ha])]

theorem stripChars_stripped (l : List Char) :
    (stripChars l).dropWhile Char.isWhitespace = stripChars l := by
  unfold stripChars
  cases hA : l.dropWhile Char.isWhitespace with
  | nil => simp
  | cons a A =>
    have ha := dropWhile_head_false hA
    rw [List.reverse_cons, List.dropWhile_append]
    by_cases hD : (A.reverse.dropWhile Char.isWhitespace).isEmpty
    · rw [if_pos hD]
      simp [List.dropWhile_cons, ha]
    · rw [if_neg hD]
      simp [List.reverse_append, List.dropWhile_cons, ha]

theorem stripChars_idem (l : List Char) :
    stripChars (stripChars l) = stripChars l := by
  have h2 : (stripChars l).reverse.dropWhile Char.isWhitespace = (stripChars l).reverse := by
    unfold stripChars
    rw [List.reverse_reverse]
    exact dropWhile_idem _
  show (((stripChars l).dropWhile Char.isWhitespace).reverse.dropWhile
      Char.isWhitespace).reverse = stripChars l
  rw [stripChars_stripped, h2, List.reverse_reverse]

theorem pyStrip_idem (s : String) : pyStrip (pyStrip s) = pyStrip s :=
  String.ext (stripChars_idem s.data)

theorem pyStrip_empty_iff {s : String} : (pyStrip s).data = [] ↔ pyStrip s = "" := by
  constructor
  · intro h; exact String.ext h
  · intro h; rw [h]

theorem mem_pySetAdd {s : List String} {x y : String} :
    y ∈ pySetAdd s x ↔ y ∈ s ∨ y = x := by
  unfold pySetAdd
  by_cases h : x ∈ s
  · rw [if_pos h]
    constructor
    · exact Or.inl
    · rintro (hy | rfl)
      · exact hy
      · exact h
  · rw [if_neg h]
    simp

theorem mem_foldl_pySetAdd (xs : List String) :
    ∀ {init : List String} {y : String},
      y ∈ xs.foldl pySetAdd init ↔ y ∈ init ∨ y ∈ xs := by
  induction xs with
  | nil => simp
  | cons a l ih =>
    intro init y
    rw [List.foldl_cons, ih, mem_pySetAdd, List.mem_cons]
    tauto

theorem mem_pySetOf {xs : List String} {y : String} :
    y ∈ pySetOf xs ↔ y ∈ xs := by
  unfold pySetOf
  rw [mem_foldl_pySetAdd]
  simp

theorem nodup_foldl_pySetAdd (xs : List String) :
    ∀ {init : List String}, init.Nodup → (xs.foldl pySetAdd init).Nodup := by
  induction xs with
  | nil => intro init h; exact h
  | cons a l ih =>
    intro init h
    rw [List.foldl_cons]
    apply ih
    unfold pySetAdd
    by_cases hm : a ∈ init
    · rwa [if_pos hm]
    · rw [if_neg hm]
      simp [List.nodup_append, h, hm]

theorem pySetOf_nodup (xs : List String) : (pySetOf xs).Nodup :=
  nodup_foldl_pySetAdd xs List.nodup_nil

theorem pySetOf_ne_nil {xs : List String} (h : xs ≠ []) : pySetOf xs ≠ [] := by
  cases xs with
  | nil => exact absurd rfl h
  | cons a l =>
    have : a ∈ pySetOf (a :: l) := mem_pySetOf.mpr (List.mem_cons_self a l)
    exact List.ne_nil_of_mem this

theorem validId_of_data_nil {s : String} (h : s.data = []) : validId s = false := by
  unfold validId headIs pyIsDigit pyDrop1
  rw [h]
  simp

theorem normalizeStep_eq_some {x s : String} :
    normalizeStep x = some s ↔ pyStrip x = s ∧ validId s = true := by
  unfold normalizeStep
  dsimp only
  split_ifs with h0 h1 h2
  · constructor
    · intro h; simp at h
    · rintro ⟨rfl, hv⟩
      rw [validId_of_data_nil (by simpa using h0)] at hv
      simp at hv
  · constructor
    · intro h
      obtain rfl : pyStrip x = s := Option.some.inj h
      refine ⟨rfl, ?_⟩
      unfold validId
      simp [h1]
    · rintro ⟨rfl, hv⟩; rfl
  · constructor
    · intro h
      obtain rfl : pyStrip x = s := Option.some.inj h
      refine ⟨rfl, ?_⟩
      unfold validId
      simp [h2]
    · rintro ⟨rfl, hv⟩; rfl
  · constructor
    · intro h; simp at h
    · rintro ⟨rfl, hv⟩
      unfold validId at hv
      simp only [Bool.or_eq_true] at hv
      rcases hv with hv | hv
      · exact absurd hv h1
      · exact absurd hv h2

theorem mem_normalize_iff {cands : List String} {s : String} :
    s ∈ _normalize_ids cands ↔ (∃ x ∈ cands, pyStrip x = s) ∧ validId s = true := by
  unfold _normalize_ids
  rw [List.mem_filterMap]
  constructor
  · rintro ⟨x, hx, hstep⟩
    rw [normalizeStep_eq_some] at hstep
    exact ⟨⟨x, hx, hstep.1⟩, hstep.2⟩
  · rintro ⟨⟨x, hx, hs⟩, hv⟩
    exact ⟨x, hx, normalizeStep_eq_some.mpr ⟨hs, hv⟩⟩

theorem update_empty (jl : String → Option PyVal) (payload : String) (prev : List String)
    (h : (pyStrip payload).data.isEmpty = true) :
    _update_allowed_from_payload jl payload prev = (false, prev) := by
  unfold _update_allowed_from_payload
  simp [h]

theorem update_none (jl : String → Option PyVal) (payload : String) (prev : List String)
    (h : extract_ids jl (pyStrip payload) = none) :
    _update_allowed_from_payload jl payload prev = (false, prev) := by
  unfold _update_allowed_from_payload
  by_cases h0 : (pyStrip payload).data.isEmpty <;> simp [h0, h]

theorem update_some_nil (jl : String → Option PyVal) (payload : String) (prev : List String)
    {ids : List String} (h : extract_ids jl (pyStrip payload) = some ids)
    (hn : _normalize_ids ids = []) :
    _update_allowed_from_payload jl payload prev = (false, prev) := by
  unfold _update_allowed_from_payload
  by_cases h0 : (pyStrip payload).data.isEmpty <;> simp [h0, h, hn]

theorem update_some_cons (jl : String → Option PyVal) (payload : String) (prev : List String)
    {ids : List String} (h : extract_ids jl (pyStrip payload) = some ids)
    (hn : _normalize_ids ids ≠ []) (h0 : (pyStrip payload).data.isEmpty = false) :
    _update_allowed_from_payload jl payload prev = (true, pySetOf (_normalize_ids ids)) := by
  unfold _update_allowed_from_payload
  simp [h0, h, hn]

theorem update_cases (jl : String → Option PyVal) (payload : String) (prev : List String) :
    _update_allowed_from_payload jl payload prev = (false, prev) ∨
    ∃ ids, extract_ids jl (pyStrip payload) = some ids ∧
      (pyStrip payload).data.isEmpty = false ∧ _normalize_ids ids ≠ [] ∧
      _update_allowed_from_payload jl payload prev = (true, pySetOf (_normalize_ids ids)) := by
  by_cases h0 : (pyStrip payload).data.isEmpty
  · exact Or.inl (update_empty jl payload prev h0)
  · cases h : extract_ids jl (pyStrip payload) with
    | none => exact Or.inl (update_none jl payload prev h)
    | some ids =>
      by_cases hn : _normalize_ids ids = []
      · exact Or.inl (update_some_nil jl payload prev h hn)
      · exact Or.inr ⟨ids, rfl, by simpa using h0, hn,
          update_some_cons jl payload prev h hn (by simpa using h0)⟩

theorem pyLower_data_nil {s : String} (h : s.data = []) : pyLower s = "" := by
  unfold pyLower
  rw [h]
  rfl

theorem le_advanceOffset (batch : List TgUpdate) :
    ∀ P : Int, P ≤ advanceOffset P batch := by
  induction batch with
  | nil => intro P; exact le_refl P
  | cons u l ih =>
    intro P
    unfold advanceOffset at *
    rw [List.foldl_cons]
    exact le_trans (le_max_left P (u.update_id + 1)) (ih _)

theorem mem_le_advanceOffset {batch : List TgUpdate} {u : TgUpdate} (hu : u ∈ batch) :
    ∀ P : Int, u.update_id + 1 ≤ advanceOffset P batch := by
  induction batch with
  | nil => cases hu
  | cons v l ih =>
    intro P
    unfold advanceOffset at *
    rw [List.foldl_cons]
    rcases List.mem_cons.mp hu with rfl | hmem
    · exact le_trans (le_max_right P (u.update_id + 1)) (le_advanceOffset l _)
    · exact ih hmem _

theorem advanceOffset_le (batch : List TgUpdate) (B : Int) :
    (∀ u ∈ batch, u.update_id + 1 ≤ B) →
    ∀ P : Int, P ≤ B → advanceOffset P batch ≤ B := by
  induction batch with
  | nil => intro _ P hP; exact hP
  | cons v l ih =>
    intro hub P hP
    unfold advanceOffset at *
    rw [List.foldl_cons]
    exact ih (fun u hu => hub u (List.mem_cons_of_mem _ hu)) _
      (max_le hP (hub v (List.mem_cons_self _ _)))

theorem advanceOffset_eq_max (batch : List TgUpdate) (P M : Int)
    (hmem : ∃ u ∈ batch, u.update_id = M)
    (hub : ∀ u ∈ batch, u.update_id ≤ M) :
    advanceOffset P batch = max P (M + 1) := by
  apply le_antisymm
  · refine advanceOffset_le batch (max P (M + 1)) ?_ P (le_max_left _ _)
    intro u hu
    have h1 : u.update_id + 1 ≤ M + 1 := by
      have := hub u hu
      omega
    exact le_trans h1 (le_max_right _ _)
  · apply max_le
    · exact le_advanceOffset _ _
    · obtain ⟨u, hu, rfl⟩ := hmem
      exact mem_le_advanceOffset hu _

theorem le_foldl_advanceOffset (batches : List (List TgUpdate)) :
    ∀ P : Int, P ≤ batches.foldl advanceOffset P := by
  induction batches with
  | nil => intro P; exact le_refl P
  | cons b bs ih =>
    intro P
    rw [List.foldl_cons]
    exact le_trans (le_advanceOffset b P) (ih _)

/-! ### Claims -/

/-- C1: for every chat id, the authorization check returns: if the dynamic
member set is non-empty, whether the id is in that set; otherwise, if the
legacy single fallback id is configured, whether the id equals it;
otherwise the value of the permissive-mode flag. -/
theorem c1_is_chat_allowed_cases (cfg : Config) (allowed : List String) (id : String) :
    (allowed ≠ [] → (_is_chat_allowed cfg allowed id = true ↔ id ∈ allowed)) ∧
    (allowed = [] → cfg.chatIdEnv ≠ "" →
      (_is_chat_allowed cfg allowed id = true ↔ id = cfg.chatIdEnv)) ∧
    (allowed = [] → cfg.chatIdEnv = "" →
      _is_chat_allowed cfg allowed id = cfg.allowAnyChat) := by
  unfold _is_chat_allowed
  refine ⟨?_, ?_, ?_⟩
  · intro h
    rw [if_pos (by simp [h])]
    simp
  · rintro rfl h
    simp [h]
  · rintro rfl h
    simp [h]

theorem c1_is_chat_allowed_cases_witness :
    _is_chat_allowed ⟨"", false⟩ ["3"] "3" = true := by
  have h := (c1_is_chat_allowed_cases ⟨"", false⟩ ["3"] "3").1 (by decide)
  exact h.mpr (by decide)

/-- C2: every malformed control payload (empty, unparseable structured
form, or zero valid tokens after normalization) makes the registry update
report failure, with the member set exactly as before. -/
theorem c2_malformed_no_update (jl : String → Option PyVal) (payload : String)
    (prev : List String)
    (h : pyStrip payload = "" ∨ extract_ids jl (pyStrip payload) = none ∨
      ∀ ids, extract_ids jl (pyStrip payload) = some ids → _normalize_ids ids = []) :
    _update_allowed_from_payload jl payload prev = (false, prev) := by
  rcases h with h | h | h
  · exact update_empty jl payload prev (by rw [h]; decide)
  · exact update_none jl payload prev h
  · cases he : extract_ids jl (pyStrip payload) with
    | none => exact update_none jl payload prev he
    | some ids => exact update_some_nil jl payload prev he (h ids he)

theorem c2_malformed_no_update_witness :
    _update_allowed_from_payload (fun _ => none) "  " ["7"] = (false, ["7"]) :=
  c2_malformed_no_update (fun _ => none) "  " ["7"] (Or.inl (by decide))

/-- C3: a CSV control payload (with at least one valid token) replaces the
member set with exactly the comma-separated tokens that, after trimming,
are all-digits or `-`+digits, deduplicated; every other token is dropped
silently. -/
theorem c3_csv_exact_set (jl : String → Option PyVal) (payload : String) (prev : List String)
    (hcsv : headIs '\x7b' (pyStrip payload) = false)
    (hne : _normalize_ids (pySplitComma (pyStrip payload)) ≠ []) :
    _update_allowed_from_payload jl payload prev =
      (true, pySetOf (_normalize_ids (pySplitComma (pyStrip payload)))) ∧
    (∀ s, s ∈ (_update_allowed_from_payload jl payload prev).2 ↔
      (∃ tok ∈ pySplitComma (pyStrip payload), pyStrip tok = s) ∧ validId s = true) ∧
    (_update_allowed_from_payload jl payload prev).2.Nodup := by
  have hex : extract_ids jl (pyStrip payload) = some (pySplitComma (pyStrip payload)) := by
    unfold extract_ids
    rw [if_neg (by simp [hcsv])]
  have h0 : (pyStrip payload).data.isEmpty = false := by
    cases hb : (pyStrip payload).data.isEmpty with
    | false => rfl
    | true =>
      exfalso
      have hs : pyStrip payload = "" := pyStrip_empty_iff.mp (by simpa using hb)
      rw [hs] at hne
      exact hne (by decide)
  have hupd := update_some_cons jl payload prev hex hne h0
  refine ⟨hupd, ?_, ?_⟩
  · intro s
    rw [hupd]
    dsimp only
    rw [mem_pySetOf, mem_normalize_iff]
  · rw [hupd]
    exact pySetOf_nodup _

theorem c3_csv_exact_set_witness :
    _update_allowed_from_payload (fun _ => none) " 12, x ,-34,12 " ["9"] =
      (true, ["12", "-34"]) := by
  have h := (c3_csv_exact_set (fun _ => none) " 12, x ,-34,12 " ["9"]
    (by decide) (by decide)).1
  exact h.trans (by decide)

/-- C4: for an authorized sender, the poller's command handling is the pure
table `/temp ↦ TEMP?`, `/door ↦ DOOR?`, `/status ↦ STATUS?`,
`/reboot ↦ REBOOT` (published and confirmed), `/help` and `/start` get the
help reply with no bus publish, and any other nonempty text gets the
unknown-command reply with no bus publish; matching is case-insensitive and
insensitive to surrounding whitespace (everything factors through the
stripped, lowered text). -/
theorem c4_command_table (cfg : Config) (allowed : List String) (m : TgMessage)
    (hauth : _is_chat_allowed cfg allowed m.chatId = true) :
    (pyLower (pyStrip m.text) = "/temp" →
      processMessage cfg allowed true (some m) =
        ⟨[(m.chatId, .confirm "TEMP?")], ["TEMP?"]⟩) ∧
    (pyLower (pyStrip m.text) = "/door" →
      processMessage cfg allowed true (some m) =
        ⟨[(m.chatId, .confirm "DOOR?")], ["DOOR?"]⟩) ∧
    (pyLower (pyStrip m.text) = "/status" →
      processMessage cfg allowed true (some m) =
        ⟨[(m.chatId, .confirm "STATUS?")], ["STATUS?"]⟩) ∧
    (pyLower (pyStrip m.text) = "/reboot" →
      processMessage cfg allowed true (some m) =
        ⟨[(m.chatId, .confirm "REBOOT")], ["REBOOT"]⟩) ∧
    ((pyLower (pyStrip m.text) = "/help" ∨ pyLower (pyStrip m.text) = "/start") →
      processMessage cfg allowed true (some m) = ⟨[(m.chatId, .help)], []⟩) ∧
    (pyLower (pyStrip m.text) ∉
        (["/temp", "/door", "/status", "/reboot", "/help", "/start"] : List String) →
      pyStrip m.text ≠ "" →
      processMessage cfg allowed true (some m) = ⟨[(m.chatId, .unknown)], []⟩) := by
  have htext : ∀ X : String, pyLower (pyStrip m.text) = X → X ≠ "" →
      (pyStrip m.text).data.isEmpty = false := by
    intro X hX hne
    cases hd : (pyStrip m.text).data.isEmpty with
    | false => rfl
    | true =>
      exfalso
      have hemp : pyLower (pyStrip m.text) = "" := pyLower_data_nil (by simpa using hd)
      rw [hX] at hemp
      exact hne hemp
  have hmapeq : map_text_to_cmd (pyStrip m.text) =
      (if pyLower (pyStrip m.text) = "/temp" then some "TEMP?"
       else if pyLower (pyStrip m.text) = "/door" then some "DOOR?"
       else if pyLower (pyStrip m.text) = "/status" then some "STATUS?"
       else if pyLower (pyStrip m.text) = "/reboot" then some "REBOOT"
       else if pyLower (pyStrip m.text) = "/start" ∨ pyLower (pyStrip m.text) = "/help"
         then none
       else none) := by
    unfold map_text_to_cmd
    rw [pyStrip_idem]
  refine ⟨?_, ?_, ?_, ?_, ?_, ?_⟩
  · intro ht
    have h0 := htext _ ht (by decide)
    unfold processMessage
    dsimp only
    rw [if_neg (by simp [h0]), if_neg (by simp [hauth]),
      if_neg (show ¬(pyLower (pyStrip m.text) = "/start" ∨
        pyLower (pyStrip m.text) = "/help") by rw [ht]; decide),
      hmapeq, ht, if_pos rfl]
    rfl
  · intro ht
    have h0 := htext _ ht (by decide)
    unfold processMessage
    dsimp only
    rw [if_neg (by simp [h0]), if_neg (by simp [hauth]),
      if_neg (show ¬(pyLower (pyStrip m.text) = "/start" ∨
        pyLower (pyStrip m.text) = "/help") by rw [ht]; decide),
      hmapeq, ht, if_neg (by decide), if_pos rfl]
    rfl
  · intro ht
    have h0 := htext _ ht (by decide)
    unfold processMessage
    dsimp only
    rw [if_neg (by simp [h0]), if_neg (by simp [hauth]),
      if_neg (show ¬(pyLower (pyStrip m.text) = "/start" ∨
        pyLower (pyStrip m.text) = "/help") by rw [ht]; decide),
      hmapeq, ht, if_neg (by decide), if_neg (by decide), if_pos rfl]
    rfl
  · intro ht
    have h0 := htext _ ht (by decide)
    unfold processMessage
    dsimp only
    rw [if_neg (by simp [h0]), if_neg (by simp [hauth]),
      if_neg (show ¬(pyLower (pyStrip m.text) = "/start" ∨
        pyLower (pyStrip m.text) = "/help") by rw [ht]; decide),
      hmapeq, ht, if_neg (by decide), if_neg (by decide), if_neg (by decide),
      if_pos rfl]
    rfl
  · intro ht
    have h0 : (pyStrip m.text).data.isEmpty = false := by
      rcases ht with ht | ht
      · exact htext _ ht (by decide)
      · exact htext _ ht (by decide)
    unfold processMessage
    dsimp only
    rw [if_neg (by simp [h0]), if_neg (by simp [hauth]), if_pos (Or.symm ht)]
  · intro hnot hne
    have h0 : (pyStrip m.text).data.isEmpty = false := by
      cases hd : (pyStrip m.text).data.isEmpty with
      | false => rfl
      | true => exact absurd (pyStrip_empty_iff.mp (by simpa using hd)) hne
    simp only [List.mem_cons, List.mem_singleton, not_or] at hnot
    obtain ⟨h1, h2, h3, h4, h5, h6, -⟩ := hnot
    unfold processMessage
    dsimp only
    rw [if_neg (by simp [h0]), if_neg (by simp [hauth]),
      if_neg (not_or.mpr ⟨h6, h5⟩), hmapeq,
      if_neg h1, if_neg h2, if_neg h3, if_neg h4, if_neg (not_or.mpr ⟨h6, h5⟩)]

theorem c4_command_table_witness :
    processMessage ⟨"", true⟩ [] true (some ⟨"5", " /TEMP "⟩) =
      ⟨[("5", .confirm "TEMP?")], ["TEMP?"]⟩ :=
  (c4_command_table ⟨"", true⟩ [] ⟨"5", " /TEMP "⟩ (by decide)).1 (by decide)

/-- C5: after a batch with maximum update id `M` and prior cursor `P`, the
poller's offset cursor equals `max(P, M+1)`, the same for any reordering of
the batch, and the cursor never decreases — neither within a batch nor
across any sequence of batches. -/
theorem c5_offset_monotone (P : Int) (batch batch2 : List TgUpdate) (M : Int)
    (hperm : batch.Perm batch2)
    (hmem : ∃ u ∈ batch, u.update_id = M)
    (hub : ∀ u ∈ batch, u.update_id ≤ M) :
    advanceOffset P batch = max P (M + 1) ∧
    advanceOffset P batch2 = max P (M + 1) ∧
    P ≤ advanceOffset P batch ∧
    ∀ batches : List (List TgUpdate), P ≤ batches.foldl advanceOffset P := by
  refine ⟨advanceOffset_eq_max batch P M hmem hub, ?_, le_advanceOffset batch P,
    fun batches => le_foldl_advanceOffset batches P⟩
  apply advanceOffset_eq_max batch2 P M
  · obtain ⟨u, hu, he⟩ := hmem
    exact ⟨u, hperm.mem_iff.mp hu, he⟩
  · intro u hu
    exact hub u (hperm.mem_iff.mpr hu)

theorem c5_offset_monotone_witness :
    advanceOffset 3 [⟨7, none⟩, ⟨5, none⟩] = 8 := by
  have h := (c5_offset_monotone 3 [⟨7, none⟩, ⟨5, none⟩] [⟨5, none⟩, ⟨7, none⟩] 7
    (List.Perm.swap _ _ _) ⟨⟨7, none⟩, List.mem_cons_self _ _, rfl⟩ (by decide)).1
  exact h.trans (by decide)

/-- C6: a message from an unauthorized sender is skipped with no reply and
no publish; and with an empty member set, no fallback id and permissive
mode off, every chat id is unauthorized and gets no reply. -/
theorem c6_unauthorized_silent (cfg : Config) (allowed : List String) (pubOk : Bool)
    (m : TgMessage) :
    (_is_chat_allowed cfg allowed m.chatId = false →
      processMessage cfg allowed pubOk (some m) = ⟨[], []⟩) ∧
    (allowed = [] → cfg.chatIdEnv = "" → cfg.allowAnyChat = false →
      _is_chat_allowed cfg allowed m.chatId = false ∧
      processMessage cfg allowed pubOk (some m) = ⟨[], []⟩) := by
  have hmain : _is_chat_allowed cfg allowed m.chatId = false →
      processMessage cfg allowed pubOk (some m) = ⟨[], []⟩ := by
    intro hna
    unfold processMessage
    dsimp only
    by_cases h0 : (pyStrip m.text).data.isEmpty
    · rw [if_pos h0]
    · rw [if_neg h0, if_pos (by simp [hna])]
  refine ⟨hmain, ?_⟩
  rintro rfl h1 h2
  have hfalse : _is_chat_allowed cfg [] m.chatId = false := by
    unfold _is_chat_allowed
    simp [h1, h2]
  exact ⟨hfalse, hmain hfalse⟩

theorem c6_unauthorized_silent_witness :
    processMessage ⟨"", false⟩ [] true (some ⟨"5", "/temp"⟩) = ⟨[], []⟩ :=
  ((c6_unauthorized_silent ⟨"", false⟩ [] true ⟨"5", "/temp"⟩).2 rfl rfl rfl).2

/-- C7 as stated is false: the forwarded text is not the exact string
`"<topic>\n<payload>"` (the source prepends `forwardMark`), and undecodable
bytes are dropped by `errors="ignore"`, not replaced.  At topic
`freezer/temp` with payload bytes `61 FF`, the broadcast is
`forwardMark ++ "freezer/temp\na"`, not `"freezer/temp\na�"`. -/
theorem c7_forwarding_counterexample :
    on_message (fun _ => none) "freezer/relay/chats" [] "freezer/temp" [0x61, 0xFF] ≠
      BusEffect.broadcast ("freezer/temp" ++ "\n" ++
        utf8DecodeReplaceSpec [0x61, 0xFF]) ∧
    on_message (fun _ => none) "freezer/relay/chats" [] "freezer/temp" [0x61, 0xFF] =
      BusEffect.broadcast (forwardMark ++ "freezer/temp" ++ "\n" ++ "a") := by
  constructor
  · decide
  · decide

/-- C7 amended: on a subscribed topic other than the control topic, the
payload is decoded as text with undecodable bytes dropped (never fatal),
and `forwardMark ++ topic ++ "\n" ++ payload` is broadcast via the
notifier. -/
theorem c7_forwarding_amended (jl : String → Option PyVal) (chatsTopic topic : String)
    (allowed : List String) (payload : List Nat) (h : topic ≠ chatsTopic) :
    on_message jl chatsTopic allowed topic payload =
      BusEffect.broadcast (forwardMark ++ topic ++ "\n" ++ utf8DecodeIgnore payload) := by
  unfold on_message
  dsimp only
  rw [if_neg h]

theorem c7_forwarding_amended_witness :
    on_message (fun _ => none) "freezer/relay/chats" [] "freezer/temp" [0x61] =
      BusEffect.broadcast (forwardMark ++ "freezer/temp" ++ "\n" ++
        utf8DecodeIgnore [0x61]) :=
  c7_forwarding_amended (fun _ => none) "freezer/relay/chats" "freezer/temp" [] [0x61]
    (by decide)

/-- C8: immediately after a successful registry replacement, authorization
holds for exactly the members of the new set, for every id and every
configuration, and the replacement does not depend on the registry's prior
contents. -/
theorem c8_replace_resets (jl : String → Option PyVal) (payload : String)
    (prevA prevB : List String)
    (h : (_update_allowed_from_payload jl payload prevA).1 = true) :
    (∀ cfg id, _is_chat_allowed cfg (_update_allowed_from_payload jl payload prevA).2 id
        = true ↔ id ∈ (_update_allowed_from_payload jl payload prevA).2) ∧
    _update_allowed_from_payload jl payload prevB =
      _update_allowed_from_payload jl payload prevA := by
  rcases update_cases jl payload prevA with hA | ⟨ids, hex, h0, hn, hA⟩
  · rw [hA] at h
    exact absurd h (by simp)
  · have hB := update_some_cons jl payload prevB hex hn h0
    refine ⟨?_, by rw [hB, hA]⟩
    intro cfg id
    rw [hA]
    dsimp only
    unfold _is_chat_allowed
    have hnil : pySetOf (_normalize_ids ids) ≠ [] := pySetOf_ne_nil hn
    rw [if_pos (by simp [hnil])]
    simp

theorem c8_replace_resets_witness :
    _is_chat_allowed ⟨"77", false⟩
        (_update_allowed_from_payload (fun _ => none) "5" []).2 "5" = true ∧
    _update_allowed_from_payload (fun _ => none) "5" ["9"] =
      _update_allowed_from_payload (fun _ => none) "5" [] := by
  have h := c8_replace_resets (fun _ => none) "5" [] ["9"] (by decide)
  exact ⟨(h.1 ⟨"77", false⟩ "5").mpr (by decide), h.2⟩

/-- C9: the legacy `CHAT_ID` is inserted into the startup member set
verbatim (only stripped), skipping the digit normalization; a token the
control-message parser rejects is nonetheless authorized, until any
successful control update replaces the set with validated ids only. -/
theorem c9_legacy_id_unvalidated (chatIdsRaw chatIdRaw : String)
    (he : pyStrip chatIdRaw ≠ "")
    (hv : validId (pyStrip chatIdRaw) = false) :
    pyStrip chatIdRaw ∈ allowed_chats_init chatIdsRaw chatIdRaw ∧
    (∀ cfg, _is_chat_allowed cfg (allowed_chats_init chatIdsRaw chatIdRaw)
      (pyStrip chatIdRaw) = true) ∧
    _normalize_ids [pyStrip chatIdRaw] = [] ∧
    (∀ jl p prev, (_update_allowed_from_payload jl p prev).1 = true →
      pyStrip chatIdRaw ∉ (_update_allowed_from_payload jl p prev).2) := by
  have hmem : pyStrip chatIdRaw ∈ allowed_chats_init chatIdsRaw chatIdRaw := by
    unfold allowed_chats_init
    dsimp only
    rw [if_pos he]
    exact mem_pySetAdd.mpr (Or.inr rfl)
  refine ⟨hmem, ?_, ?_, ?_⟩
  · intro cfg
    unfold _is_chat_allowed
    have hnil : allowed_chats_init chatIdsRaw chatIdRaw ≠ [] := List.ne_nil_of_mem hmem
    rw [if_pos (by simp [hnil])]
    simpa using hmem
  · cases hst : normalizeStep (pyStrip chatIdRaw) with
    | none =>
      unfold _normalize_ids
      simp [List.filterMap_cons, hst]
    | some s =>
      exfalso
      obtain ⟨h1, h2⟩ := normalizeStep_eq_some.mp hst
      rw [pyStrip_idem] at h1
      rw [h1] at hv
      rw [hv] at h2
      exact Bool.false_ne_true h2
  · intro jl p prev h
    rcases update_cases jl p prev with hU | ⟨ids, hex, h0, hn, hU⟩
    · rw [hU] at h
      exact absurd h (by simp)
    · rw [hU]
      dsimp only
      intro hmem2
      have hval := (mem_normalize_iff.mp (mem_pySetOf.mp hmem2)).2
      rw [hv] at hval
      exact Bool.false_ne_true hval

theorem c9_legacy_id_unvalidated_witness :
    pyStrip " abc " ∈ allowed_chats_init "12" " abc " ∧
    _is_chat_allowed ⟨"", false⟩ (allowed_chats_init "12" " abc ") (pyStrip " abc ")
      = true := by
  have h := c9_legacy_id_unvalidated "12" " abc " (by decide) (by decide)
  exact ⟨h.1, h.2.1 ⟨"", false⟩⟩

/-- C10: no control update empties the member set: each update is either
rejected with the set unchanged, or replaces it with a non-empty set all of
whose members pass the id validation; hence a non-empty set stays
non-empty. -/
theorem c10_update_never_empties (jl : String → Option PyVal) (payload : String)
    (prev : List String) :
    ((_update_allowed_from_payload jl payload prev).1 = false →
      (_update_allowed_from_payload jl payload prev).2 = prev) ∧
    ((_update_allowed_from_payload jl payload prev).1 = true →
      (_update_allowed_from_payload jl payload prev).2 ≠ [] ∧
      ∀ s ∈ (_update_allowed_from_payload jl payload prev).2, validId s = true) ∧
    (prev ≠ [] → (_update_allowed_from_payload jl payload prev).2 ≠ []) := by
  rcases update_cases jl payload prev with hU | ⟨ids, hex, h0, hn, hU⟩
  · rw [hU]
    exact ⟨fun _ => rfl, fun h => absurd h (by simp), fun h => h⟩
  · rw [hU]
    dsimp only
    have hnil := pySetOf_ne_nil hn
    refine ⟨fun h => absurd h (by simp), fun _ => ⟨hnil, ?_⟩, fun _ => hnil⟩
    intro s hs
    exact (mem_normalize_iff.mp (mem_pySetOf.mp hs)).2

theorem c10_update_never_empties_witness :
    (_update_allowed_from_payload (fun _ => none) "nope" ["5"]).2 ≠ [] :=
  (c10_update_never_empties (fun _ => none) "nope" ["5"]).2.2 (by decide)

end Relay
